import Mathlib

/-!
Verification development for the docker-compose to Easypanel template
converter (`scripts/compose-to-template.ts`).  The converter's pure core is
embedded shallowly: JS strings become `String` (lists of `Char`), JS objects
with string keys become ordered association lists with JS assignment
semantics (`jsUpsert`), and JS `NaN` from `parseInt` becomes `none`.
-/

set_option maxRecDepth 10000

/-! ## Generic list/string helpers (JS string primitive semantics) -/

/-- JS `String.prototype.includes`, at the `List Char` level: `pat` occurs
contiguously inside `hay`. -/
def occursIn (pat : List Char) : List Char → Bool
  | [] => pat.isEmpty
  | c :: t => pat.isPrefixOf (c :: t) || occursIn pat t

/-- JS `hay.includes(sub)`. -/
def jsIncludes (s sub : String) : Bool :=
  occursIn sub.data s.data

/-- JS `s.startsWith(pre)`. -/
def jsStartsWith (s pre : String) : Bool :=
  pre.data.isPrefixOf s.data

/-- JS `String.prototype.toLowerCase` (ASCII range, which is all the
converter ever feeds it). -/
def jsToLower (s : String) : String :=
  String.mk (s.data.map Char.toLower)

/-- JS `String.prototype.split` with a single-character separator:
`splitOnChar c l` returns the (always nonempty) list of separator-free
chunks. -/
def splitOnChar (c : Char) : List Char → List (List Char)
  | [] => [[]]
  | x :: t =>
    match splitOnChar c t with
    | [] => [[x]]
    | h :: r => if x = c then [] :: h :: r else (x :: h) :: r

/-- JS `s.split(c)` producing strings. -/
def splitOnStr (c : Char) (s : String) : List String :=
  (splitOnChar c s.data).map String.mk

/-- JS `Array.prototype.join(sep)` at the `List Char` level. -/
def joinWith (sep : List Char) : List (List Char) → List Char
  | [] => []
  | [x] => x
  | x :: y :: t => x ++ sep ++ joinWith sep (y :: t)

/-- Interleaving used by JS `replace` with an empty global pattern:
the replacement is inserted before every character and at the end. -/
def interleave (repl : List Char) : List Char → List Char
  | [] => repl
  | c :: t => repl ++ c :: interleave repl t

/-- Fuel-driven worker for `replaceAll`; the fuel starts at `hay.length`,
which bounds the number of recursive steps, so the function computes the
usual leftmost, non-overlapping, single-pass global replacement. -/
def replaceFuel (pat repl : List Char) : Nat → List Char → List Char
  | 0, hay => hay
  | _ + 1, [] => []
  | n + 1, c :: t =>
    if pat.isPrefixOf (c :: t) then repl ++ replaceFuel pat repl n (List.drop (pat.length - 1) t)
    else c :: replaceFuel pat repl n t

/-- JS `hay.replace(new RegExp(pat, "g"), repl)` for a metacharacter-free
`pat` (the converter only ever passes service names). -/
def replaceAll (pat repl hay : List Char) : List Char :=
  if pat.isEmpty then interleave repl hay
  else replaceFuel pat repl hay.length hay

/-- First `value` recorded under key `k` in an association list. -/
def lookupKey (k : String) : List (String × α) → Option α
  | [] => none
  | p :: t => if p.1 = k then some p.2 else lookupKey k t

/-- JS object assignment `obj[k] = v` on an ordered association list:
if the key is already present its value is replaced in place (the key
keeps its original position), otherwise the pair is appended. -/
def jsUpsert (m : List (String × α)) (k : String) (v : α) : List (String × α) :=
  if m.any (fun p => p.1 = k) then
    m.map (fun p => if p.1 = k then (k, v) else p)
  else
    m ++ [(k, v)]

/-- Builds a JS object from a sequence of assignments, first to last. -/
def objFromList (l : List (String × α)) : List (String × α) :=
  l.foldl (fun acc kv => jsUpsert acc kv.1 kv.2) []

/-- Concatenation of the strings produced for each element, in order
(the shape of the converter's `code += ...` loops). -/
def concatMapStr (f : α → String) : List α → String
  | [] => ""
  | x :: t => f x ++ concatMapStr f t

/-! ## Data model (interfaces `DockerComposeService` / `DockerCompose`) -/

/-- `environment` field: either the mapping form or the `KEY=VALUE`
sequence form. -/
inductive EnvInput where
  | mapping (m : List (String × String))
  | seq (items : List String)
deriving Repr, DecidableEq

/-- A compose service (`DockerComposeService`).  `build` is a `string | object`
in the source but is only ever tested for presence, so it is embedded as a
presence flag.  Fields the converter never reads (`depends_on`, `restart`,
`networks`, `labels`, `env_file`) are omitted. -/
structure Service where
  image : Option String := none
  build : Bool := false
  environment : Option EnvInput := none
  ports : List String := []
  volumes : List String := []
  command : Option (String ⊕ List String) := none
deriving Repr, DecidableEq

def defaultService : Service := {}

/-- A compose document (`DockerCompose`); `services` is an ordered mapping,
embedded as an association list in document order. -/
structure DockerCompose where
  services : List (String × Service)
deriving Repr, DecidableEq

/-- `compose.services[name]` (total here; the converter only looks up names
that came out of `Object.entries(compose.services)`). -/
def svcOf (compose : DockerCompose) (name : String) : Service :=
  (lookupKey name compose.services).getD defaultService

/-- Result of `analyzeServices`. -/
structure Analysis where
  databases : List String
  apps : List String
  otherServices : List String
deriving Repr, DecidableEq

/-! ## Service classifier (`analyzeServices`, lines 125-146) -/

/-- The fixed keyword table `dbImages`. -/
def dbImages : List String :=
  ["postgres", "mysql", "mariadb", "mongo", "redis", "elasticsearch"]

/-- The per-service database test:
`dbImages.some((db) => image.includes(db) || name.toLowerCase().includes(db))`
with `image = service.image?.toLowerCase() || ''`. -/
def isDbService (name : String) (service : Service) : Bool :=
  let image := jsToLower (service.image.getD "")
  dbImages.any fun db => jsIncludes image db || jsIncludes (jsToLower name) db

/-- Presence of `service.image || service.build`, the application test of
the classifier's `else if`. -/
def hasImageOrBuild (service : Service) : Bool :=
  service.image.isSome || service.build

/-- The body of the classifier loop: push the entry's name onto exactly one
of the three lists. -/
def classifyStep (acc : Analysis) (entry : String × Service) : Analysis :=
  if isDbService entry.1 entry.2 then
    { acc with databases := acc.databases ++ [entry.1] }
  else if hasImageOrBuild entry.2 then
    { acc with apps := acc.apps ++ [entry.1] }
  else
    { acc with otherServices := acc.otherServices ++ [entry.1] }

/-- `analyzeServices`: one pass over the document, pushing each name onto
exactly one of the three lists. -/
def analyzeServices (services : List (String × Service)) : Analysis :=
  services.foldl classifyStep ⟨[], [], []⟩

/-- The three classification predicates on a document entry, as decided by
the `if / else if / else` chain of `analyzeServices`. -/
def classDb (entry : String × Service) : Bool :=
  isDbService entry.1 entry.2

def classApp (entry : String × Service) : Bool :=
  !classDb entry && hasImageOrBuild entry.2

def classOther (entry : String × Service) : Bool :=
  !classDb entry && !hasImageOrBuild entry.2

/-! ## Value normalizers (`parseEnvironment`, `parseVolume`, `parsePort`) -/

/-- One sequence token:
`const [key, ...valueParts] = item.split('='); result[key] = valueParts.join('=') || '';`
(split on every `=`, keep the first chunk as the key, rejoin the rest). -/
def splitFirstEq (item : String) : String × String :=
  let parts := splitOnChar '=' item.data
  (String.mk (parts.headD []), String.mk (joinWith ['='] parts.tail))

/-- `parseEnvironment` (lines 399-409): the mapping form is returned as is;
the sequence form is folded into a JS object token by token. -/
def parseEnvironment : EnvInput → List (String × String)
  | EnvInput.mapping m => m
  | EnvInput.seq items =>
    items.foldl (fun acc item => jsUpsert acc (splitFirstEq item).1 (splitFirstEq item).2) []

/-- Mount mechanism of a parsed volume token. -/
inductive MountType where
  | volume
  | bind
deriving Repr, DecidableEq

/-- Result record of `parseVolume`. -/
structure VolumeBinding where
  vtype : MountType
  name : String
  containerPath : String
  hostPath : Option String := none
deriving Repr, DecidableEq

/-- `parseVolume` (lines 427-459). -/
def parseVolume (volume : String) : VolumeBinding :=
  let parts := splitOnStr ':' volume
  if 2 ≤ parts.length then
    let source := parts.headD ""
    let target := parts.getD 1 ""
    if jsStartsWith source "/" || jsStartsWith source "./" then
      ⟨MountType.bind, source, target, some source⟩
    else
      ⟨MountType.volume, source, target, none⟩
  else
    ⟨MountType.volume, "unknown", volume, none⟩

/-- JS `parseInt(s, 10)`: skip leading whitespace, read an optional sign and
then a maximal run of decimal digits; `none` models `NaN`. -/
def jsParseInt (s : String) : Option Int :=
  let l := s.data.dropWhile Char.isWhitespace
  let signAndRest : Int × List Char :=
    match l with
    | '-' :: t => (-1, t)
    | '+' :: t => (1, t)
    | _ => (1, l)
  let digits := signAndRest.2.takeWhile Char.isDigit
  if digits.isEmpty then none
  else some (signAndRest.1 * (digits.foldl (fun acc c => acc * 10 + (c.toNat - 48)) 0 : Nat))

/-- Result record of `parsePort`; `none` in a field models JS `NaN`. -/
structure PortBinding where
  hostPort : Option Int
  containerPort : Option Int
deriving Repr, DecidableEq

/-- `parsePort` (lines 461-473). -/
def parsePort (port : String) : Option PortBinding :=
  let parts := splitOnStr ':' port
  if parts.length = 2 then
    some ⟨jsParseInt (parts.headD ""), jsParseInt (parts.getD 1 "")⟩
  else if parts.length = 1 then
    some ⟨jsParseInt (parts.headD ""), jsParseInt (parts.headD "")⟩
  else
    none

/-- `detectDatabaseType` (lines 475-483). -/
def detectDatabaseType (image : String) : Option String :=
  let lower := jsToLower image
  if jsIncludes lower "postgres" then some "postgres"
  else if jsIncludes lower "mysql" then some "mysql"
  else if jsIncludes lower "mariadb" then some "mariadb"
  else if jsIncludes lower "mongo" then some "mongo"
  else if jsIncludes lower "redis" then some "redis"
  else none

/-- `sanitizeVarName`: hyphens become underscores. -/
def sanitizeVarName (name : String) : String :=
  String.mk (name.data.map fun c => if c = '-' then '_' else c)

/-! ## Schema synthesizer (`generateMetaYaml`, lines 179-254)

Only the construction of `schema.properties` is embedded (the claims are
about the SchemaDescription); the surrounding yaml serialization is not. -/

/-- One property of the synthesized schema (`{type, title, default?}`). -/
structure FieldSpec where
  ftype : String
  title : String
  default : Option String := none
deriving Repr, DecidableEq

/-- The seed property `projectName` (no default). -/
def projectNameField : String × FieldSpec :=
  ("projectName", ⟨"string", "Project Name", none⟩)

/-- `[...analysis.databases, ...analysis.apps, ...analysis.otherServices]`. -/
def allServices (analysis : Analysis) : List String :=
  analysis.databases ++ analysis.apps ++ analysis.otherServices

/-- The sequence of `schema.properties[...] = ...` assignments performed for
one service: the service-name field, then the image field when an image is
present, then one field per normalized environment entry. -/
def serviceFieldInsertions (compose : DockerCompose) (serviceName : String) :
    List (String × FieldSpec) :=
  let service := svcOf compose serviceName
  [(serviceName ++ "ServiceName",
    ⟨"string", serviceName ++ " Service Name", some serviceName⟩)]
  ++ (match service.image with
      | some img =>
        [(serviceName ++ "ServiceImage", ⟨"string", serviceName ++ " Docker Image", some img⟩)]
      | none => [])
  ++ (match service.environment with
      | some env =>
        (parseEnvironment env).map fun kv =>
          (serviceName ++ "_" ++ kv.1, ⟨"string", serviceName ++ ": " ++ kv.1, some kv.2⟩)
      | none => [])

/-- All property assignments after the seed, in pass order. -/
def fieldInsertions (compose : DockerCompose) (analysis : Analysis) :
    List (String × FieldSpec) :=
  (allServices analysis).flatMap (serviceFieldInsertions compose)

/-- The final `schema.properties` object: the seed assignment followed by
every per-service assignment, with JS object-assignment semantics. -/
def metaSchemaProps (compose : DockerCompose) (analysis : Analysis) :
    List (String × FieldSpec) :=
  objFromList (projectNameField :: fieldInsertions compose analysis)

/-! ## Interpolation engine (`interpolateEnvValue`, lines 411-425) -/

/-- The replacement text spliced in for a database name:
`$(PROJECT_NAME)_` followed by a `$`-brace reference to the database's
runtime-name input field. -/
def dbRefReplacement (dbName : String) : String :=
  "$(PROJECT_NAME)_$\x7binput." ++ dbName ++ "ServiceName\x7d"

/-- Escape backticks for embedding in a template literal. -/
def escapeBackticks (l : List Char) : List Char :=
  l.flatMap fun c => if c = Char.ofNat 96 then ['\\', Char.ofNat 96] else [c]

/-- Escape interpolation sigils for embedding in a template literal. -/
def escapeDollars (l : List Char) : List Char :=
  l.flatMap fun c => if c = '$' then ['\\', '$'] else [c]

/-- `interpolateEnvValue`: replace every database-name occurrence with its
symbolic reference, then escape backticks and dollars. -/
def interpolateEnvValue (value : String) (dbPasswords : List (String × String)) : String :=
  let replaced := dbPasswords.foldl
    (fun acc kv => String.mk (replaceAll kv.1.data (dbRefReplacement kv.1).data acc.data))
    value
  String.mk (escapeDollars (escapeBackticks replaced.data))

/-! ## Source-text emitter (`generateIndexTs` / `generateAppServiceCode`,
lines 256-397) -/

/-- JS template interpolation of a number; `none` is `NaN`. -/
def renderJsNumber : Option Int → String
  | some n => toString n
  | none => "NaN"

/-- One emitted `env` line: a template literal `` `KEY=value`, ``. -/
def envLine (dbPasswords : List (String × String)) (kv : String × String) : String :=
  "        `" ++ kv.1 ++ "=" ++ interpolateEnvValue kv.2 dbPasswords ++ "`,\n"

/-- The `env:` block of an app service (skipped when there are no
environment entries). -/
def envSection (service : Service) (dbPasswords : List (String × String)) : String :=
  let envVars := parseEnvironment (service.environment.getD (EnvInput.mapping []))
  if envVars.length = 0 then ""
  else
    "      env: [\n" ++ concatMapStr (envLine dbPasswords) envVars
      ++ "      ].join(\"\\n\"),\n"

/-- The `source:` block of an app service. -/
def sourceSection (serviceName : String) (service : Service) : String :=
  match service.image with
  | some _ =>
    "      source: \x7b\n        type: \"image\",\n        image: input."
      ++ serviceName ++ "ServiceImage,\n      \x7d,\n"
  | none =>
    if service.build then
      "      // TODO: Configure build source\n      source: \x7b\n        type: \"image\",\n"
        ++ "        image: \"REPLACE_WITH_IMAGE\",\n      \x7d,\n"
    else ""

/-- One entry of the `mounts:` block. -/
def mountEntry (volume : String) : String :=
  let parsed := parseVolume volume
  match parsed.vtype with
  | MountType.volume =>
    "        \x7b\n          type: \"volume\",\n          name: \"" ++ parsed.name
      ++ "\",\n          mountPath: \"" ++ parsed.containerPath ++ "\",\n        \x7d,\n"
  | MountType.bind =>
    "        // TODO: Handle bind mount: " ++ volume ++ "\n"

/-- The `mounts:` block (skipped when the service declares no volumes). -/
def mountsSection (service : Service) : String :=
  if service.volumes.isEmpty then ""
  else "      mounts: [\n" ++ concatMapStr mountEntry service.volumes ++ "      ],\n"

/-- The `domains:` block: only the first declared port is used, and only
when it parses to a binding. -/
def domainsSection (service : Service) : String :=
  match service.ports with
  | [] => ""
  | p :: _ =>
    match parsePort p with
    | some firstPort =>
      "      domains: [\n        \x7b\n          host: \"$(EASYPANEL_DOMAIN)\",\n          port: "
        ++ renderJsNumber firstPort.containerPort ++ ",\n        \x7d,\n      ],\n"
    | none => ""

/-- Escape double quotes in a command string. -/
def escapeQuotes (l : List Char) : List Char :=
  l.flatMap fun c => if c = '"' then ['\\', '"'] else [c]

/-- The `deploy:` block for a declared command (array commands are joined
with spaces). -/
def commandSection (service : Service) : String :=
  match service.command with
  | none => ""
  | some cmd =>
    let command := match cmd with
      | Sum.inl s => s
      | Sum.inr parts => String.mk (joinWith [' '] (parts.map String.data))
    "      deploy: \x7b\n        command: \"" ++ String.mk (escapeQuotes command.data)
      ++ "\",\n      \x7d,\n"

/-- `generateAppServiceCode` (lines 316-397). -/
def generateAppServiceCode (serviceName : String) (service : Service)
    (dbPasswords : List (String × String)) : String :=
  "  // " ++ serviceName ++ " Service\n  services.push(\x7b\n    type: \"app\",\n"
    ++ "    data: \x7b\n      serviceName: input." ++ serviceName ++ "ServiceName,\n"
    ++ envSection service dbPasswords
    ++ sourceSection serviceName service
    ++ mountsSection service
    ++ domainsSection service
    ++ commandSection service
    ++ "    \x7d,\n  \x7d);\n\n"

/-- The password variable name generated for a database service. -/
def passwordVar (dbName : String) : String :=
  sanitizeVarName dbName ++ "Password"

/-- The per-database `const ... = randomPassword();` statement. -/
def passwordStmt (dbName : String) : String :=
  "  const " ++ passwordVar dbName ++ " = randomPassword();\n"

/-- The typed `services.push` statement emitted for a supported database. -/
def dbTypedPush (dbName dbType pwdVar : String) : String :=
  "  services.push(\x7b\n    type: \"" ++ dbType ++ "\",\n    data: \x7b\n"
    ++ "      serviceName: input." ++ dbName ++ "ServiceName,\n"
    ++ "      password: " ++ pwdVar ++ ",\n"
    ++ "    \x7d,\n  \x7d);\n\n"

/-- The chunk emitted for one database-class service: a comment, then
either the typed push (for the five supported engines) or a fallback app
declaration. -/
def dbChunk (compose : DockerCompose) (dbPasswords : List (String × String))
    (dbName : String) : String :=
  let service := svcOf compose dbName
  let dbType := detectDatabaseType (service.image.getD "")
  "  // " ++ dbName ++ " Service (" ++ dbType.getD "database" ++ ")\n"
    ++ (match dbType with
        | some ty =>
          if ty ∈ ["postgres", "mysql", "mariadb", "mongo", "redis"] then
            dbTypedPush dbName ty ((lookupKey dbName dbPasswords).getD "")
          else
            generateAppServiceCode dbName service dbPasswords
        | none => generateAppServiceCode dbName service dbPasswords)

/-- The fixed header of the generated `index.ts`. -/
def indexTsHeader : String :=
  "import \x7b Output, randomPassword, Services \x7d from \"~templates-utils\";\n"
    ++ "import \x7b Input \x7d from \"./meta\";\n\n"
    ++ "export function generate(input: Input): Output \x7b\n"
    ++ "  const services: Services = [];\n\n"

/-- The `dbPasswords` dictionary built by the first loop of
`generateIndexTs`: each database name maps to its password variable. -/
def dbPasswordsOf (analysis : Analysis) : List (String × String) :=
  analysis.databases.map fun d => (d, passwordVar d)

/-- `generateIndexTs` (lines 256-314).  The slug parameter is accepted but,
as in the source, never used in the emitted text. -/
def generateIndexTs (_slug : String) (compose : DockerCompose) (analysis : Analysis) : String :=
  indexTsHeader
    ++ concatMapStr passwordStmt analysis.databases
    ++ (if analysis.databases.length = 0 then "" else "\n")
    ++ concatMapStr (dbChunk compose (dbPasswordsOf analysis)) analysis.databases
    ++ concatMapStr (fun a => generateAppServiceCode a (svcOf compose a) (dbPasswordsOf analysis))
        analysis.apps
    ++ concatMapStr (fun s => generateAppServiceCode s (svcOf compose s) (dbPasswordsOf analysis))
        analysis.otherServices
    ++ "  return \x7b services \x7d;\n\x7d\n"

/-! ## Statement-level definitions -/

/-- `pats` occur in `hay` in the given order, on disjoint ranges. -/
def containsInOrder : List Char → List (List Char) → Prop
  | _, [] => True
  | hay, p :: ps => ∃ a b, hay = a ++ p ++ b ∧ containsInOrder b ps

/-- Some recognized database keyword occurs in the lowercased image
reference or in the lowercased declared name. -/
def DbKeywordHit (name : String) (service : Service) : Prop :=
  ∃ kw ∈ dbImages,
    (∃ a b, (jsToLower (service.image.getD "")).data = a ++ kw.data ++ b)
    ∨ (∃ a b, (jsToLower name).data = a ++ kw.data ++ b)

/-- Modelled from the spec's words, for comparison with the code's
classifier: "compute a lowercase haystack from its image reference
concatenated with its declared name", Database iff that one haystack
contains a recognized keyword. -/
def specHaystackIsDb (name : String) (service : Service) : Bool :=
  let hay := jsToLower (service.image.getD "") ++ jsToLower name
  dbImages.any fun kw => jsIncludes hay kw

/-- The service-declaration statement emitted for a database whose image
maps to a supported engine type. -/
def dbDeclStmt (compose : DockerCompose) (dbName : String) : String :=
  dbTypedPush dbName
    ((detectDatabaseType ((svcOf compose dbName).image.getD "")).getD "")
    (passwordVar dbName)

/-- The runtime-name reference line inside a database declaration. -/
def serviceNameLine (dbName : String) : String :=
  "      serviceName: input." ++ dbName ++ "ServiceName,\n"

/-- The generated-secret line inside a database declaration. -/
def passwordLine (dbName : String) : String :=
  "      password: " ++ passwordVar dbName ++ ",\n"

/-- The compose document of the database-detection scenario: a `db` service
with image `postgres:15` and an `api` service whose environment value
references `db`. -/
def dbScenarioServices : List (String × Service) :=
  [("db", { image := some "postgres:15" }),
   ("api", { image := some "nginx",
             environment := some (EnvInput.mapping
               [("DATABASE_URL", "postgres://user:pass@db:5432/app")]) })]

/-! ## Helper lemmas -/

theorem isPrefixOf_iff_exists {p l : List Char} :
    p.isPrefixOf l = true ↔ ∃ t, l = p ++ t := by
  rw [List.isPrefixOf_iff_prefix]
  constructor
  · rintro ⟨t, rfl⟩
    exact ⟨t, rfl⟩
  · rintro ⟨t, rfl⟩
    exact ⟨t, rfl⟩

theorem occursIn_iff {pat hay : List Char} :
    occursIn pat hay = true ↔ ∃ a b, hay = a ++ pat ++ b := by
  induction hay with
  | nil =>
    simp only [occursIn, List.isEmpty_iff]
    constructor
    · rintro rfl
      exact ⟨[], [], rfl⟩
    · rintro ⟨a, b, h⟩
      have h1 := List.append_eq_nil.mp h.symm
      exact (List.append_eq_nil.mp h1.1).2
  | cons c t ih =>
    simp only [occursIn, Bool.or_eq_true, ih, isPrefixOf_iff_exists]
    constructor
    · rintro (⟨r, hr⟩ | ⟨a, b, rfl⟩)
      · exact ⟨[], r, by simpa using hr⟩
      · exact ⟨c :: a, b, rfl⟩
    · rintro ⟨a, b, hab⟩
      cases a with
      | nil =>
        exact Or.inl ⟨b, by simpa using hab⟩
      | cons x a' =>
        simp only [List.cons_append, List.cons.injEq] at hab
        exact Or.inr ⟨a', b, hab.2⟩

theorem jsIncludes_iff {s sub : String} :
    jsIncludes s sub = true ↔ ∃ a b, s.data = a ++ sub.data ++ b := by
  rw [jsIncludes, occursIn_iff]

theorem splitOnChar_ne_nil (c : Char) (l : List Char) : splitOnChar c l ≠ [] := by
  cases l with
  | nil => simp [splitOnChar]
  | cons x t =>
    rw [splitOnChar]
    cases splitOnChar c t with
    | nil => simp
    | cons h r =>
      by_cases hx : x = c <;> simp [hx]

theorem splitOnChar_no_sep (c : Char) (l : List Char) :
    ∀ p ∈ splitOnChar c l, c ∉ p := by
  induction l with
  | nil => simp [splitOnChar]
  | cons x t ih =>
    rw [splitOnChar]
    rcases hsp : splitOnChar c t with _ | ⟨h, r⟩
    · exact absurd hsp (splitOnChar_ne_nil c t)
    · by_cases hx : x = c
      · simp only [hx, if_pos rfl]
        intro p hp
        rcases List.mem_cons.mp hp with rfl | hp'
        · simp
        · exact ih p (hsp ▸ hp')
      · simp only [if_neg hx]
        intro p hp
        rcases List.mem_cons.mp hp with rfl | hp'
        · have hh : c ∉ h := ih h (hsp ▸ List.mem_cons_self h r)
          intro hc
          rcases List.mem_cons.mp hc with he | hc'
          · exact hx he.symm
          · exact hh hc'
        · exact ih p (hsp ▸ List.mem_cons_of_mem h hp')

theorem splitOnChar_eq_single {c : Char} {l : List Char} (h : c ∉ l) :
    splitOnChar c l = [l] := by
  induction l with
  | nil => rfl
  | cons x t ih =>
    have hx : x ≠ c := fun he => h (he ▸ List.mem_cons_self x t)
    have ht : c ∉ t := fun hm => h (List.mem_cons_of_mem x hm)
    rw [splitOnChar, ih ht]
    simp [hx]

theorem splitOnChar_append_sep {c : Char} {l1 : List Char} (l2 : List Char)
    (h : c ∉ l1) :
    splitOnChar c (l1 ++ c :: l2) = l1 :: splitOnChar c l2 := by
  induction l1 with
  | nil =>
    rw [List.nil_append, splitOnChar]
    rcases hsp : splitOnChar c l2 with _ | ⟨h2, r2⟩
    · exact absurd hsp (splitOnChar_ne_nil c l2)
    · simp
  | cons x t ih =>
    have hx : x ≠ c := fun he => h (he ▸ List.mem_cons_self x t)
    have ht : c ∉ t := fun hm => h (List.mem_cons_of_mem x hm)
    rw [List.cons_append, splitOnChar, ih ht]
    simp [hx]

theorem joinWith_splitOnChar (c : Char) (l : List Char) :
    joinWith [c] (splitOnChar c l) = l := by
  induction l with
  | nil => rfl
  | cons x t ih =>
    rw [splitOnChar]
    rcases hsp : splitOnChar c t with _ | ⟨h, r⟩
    · exact absurd hsp (splitOnChar_ne_nil c t)
    · by_cases hx : x = c
      · subst hx
        simp only [if_pos rfl, joinWith]
        rw [← hsp, ih]
        simp
      · simp only [if_neg hx]
        cases r with
        | nil =>
          simp only [joinWith]
          have : joinWith [c] (splitOnChar c t) = t := ih
          rw [hsp] at this
          simp only [joinWith] at this
          rw [this]
        | cons h2 r2 =>
          simp only [joinWith]
          have : joinWith [c] (splitOnChar c t) = t := ih
          rw [hsp] at this
          simp only [joinWith] at this
          simp only [List.cons_append, List.append_assoc] at this ⊢
          rw [this]

theorem lookupKey_append {α : Type} (k : String) (m m' : List (String × α)) :
    lookupKey k (m ++ m')
      = match lookupKey k m with
        | some v => some v
        | none => lookupKey k m' := by
  induction m with
  | nil => simp [lookupKey]
  | cons p t ih =>
    by_cases hp : p.1 = k
    · simp [lookupKey, hp]
    · simp [lookupKey, hp, ih]

theorem lookupKey_eq_none {α : Type} {k : String} {m : List (String × α)}
    (h : ∀ p ∈ m, p.1 ≠ k) : lookupKey k m = none := by
  induction m with
  | nil => rfl
  | cons p t ih =>
    have hp : p.1 ≠ k := h p (List.mem_cons_self p t)
    rw [lookupKey, if_neg hp]
    exact ih fun q hq => h q (List.mem_cons_of_mem p hq)

theorem lookupKey_map_replace_ne {α : Type} {k0 k : String} {v0 : α}
    (hne : k0 ≠ k) (m : List (String × α)) :
    lookupKey k (m.map fun p => if p.1 = k0 then (k0, v0) else p)
      = lookupKey k m := by
  induction m with
  | nil => rfl
  | cons p t ih =>
    rw [List.map_cons]
    by_cases hp : p.1 = k0
    · have hpk : ¬p.1 = k := by rw [hp]; exact hne
      rw [if_pos hp, lookupKey, lookupKey, if_neg hne, if_neg hpk, ih]
    · rw [if_neg hp, lookupKey, lookupKey, ih]

theorem lookupKey_map_replace_self {α : Type} {k0 : String} {v0 : α}
    {m : List (String × α)} (hany : m.any (fun p => p.1 = k0) = true) :
    lookupKey k0 (m.map fun p => if p.1 = k0 then (k0, v0) else p)
      = some v0 := by
  induction m with
  | nil => simp at hany
  | cons p t ih =>
    rw [List.map_cons]
    by_cases hp : p.1 = k0
    · rw [if_pos hp, lookupKey, if_pos rfl]
    · have hany' : t.any (fun p => p.1 = k0) = true := by
        simp only [List.any_cons, Bool.or_eq_true, decide_eq_true_eq] at hany
        rcases hany with h | h
        · exact absurd h hp
        · exact h
      rw [if_neg hp, lookupKey, if_neg hp]
      exact ih hany'

theorem lookupKey_jsUpsert {α : Type} (m : List (String × α)) (k0 k : String) (v0 : α) :
    lookupKey k (jsUpsert m k0 v0)
      = if k0 = k then some v0 else lookupKey k m := by
  rw [jsUpsert]
  by_cases hany : m.any (fun p => p.1 = k0) = true
  · rw [if_pos hany]
    by_cases hk : k0 = k
    · subst hk
      rw [if_pos rfl]
      exact lookupKey_map_replace_self hany
    · rw [if_neg hk, lookupKey_map_replace_ne hk]
  · rw [if_neg hany]
    rw [lookupKey_append]
    have hnone : ∀ p ∈ m, p.1 ≠ k0 := by
      intro p hp he
      simp only [List.any_eq_true, decide_eq_true_eq] at hany
      exact hany ⟨p, hp, he⟩
    by_cases hk : k0 = k
    · subst hk
      rw [lookupKey_eq_none hnone]
      simp [lookupKey]
    · cases hl : lookupKey k m with
      | some v => simp [hk]
      | none => simp [lookupKey, hk]

theorem mapfst_jsUpsert_replace {α : Type} (m : List (String × α)) (k0 : String) (v0 : α) :
    (List.map (fun p => if p.1 = k0 then (k0, v0) else p) m).map Prod.fst
      = m.map Prod.fst := by
  rw [List.map_map]
  apply List.map_congr_left
  intro p _
  by_cases hp : p.1 = k0
  · simp [hp]
  · simp [hp]

theorem nodup_keys_jsUpsert {α : Type} {m : List (String × α)} (k0 : String) (v0 : α)
    (h : (m.map Prod.fst).Nodup) :
    ((jsUpsert m k0 v0).map Prod.fst).Nodup := by
  rw [jsUpsert]
  by_cases hany : m.any (fun p => p.1 = k0) = true
  · rw [if_pos hany, mapfst_jsUpsert_replace]
    exact h
  · rw [if_neg hany, List.map_append]
    rw [List.nodup_append]
    refine ⟨h, by simp, ?_⟩
    intro x hx hx'
    simp only [List.map_cons, List.map_nil, List.mem_singleton] at hx'
    subst hx'
    simp only [List.mem_map] at hx
    rcases hx with ⟨p, hp, hpk⟩
    simp only [List.any_eq_true, decide_eq_true_eq] at hany
    exact hany ⟨p, hp, hpk⟩

theorem nodup_keys_objFromList {α : Type} (l : List (String × α)) :
    ((objFromList l).map Prod.fst).Nodup := by
  suffices h : ∀ (l : List (String × α)) (acc : List (String × α)),
      (acc.map Prod.fst).Nodup →
      ((l.foldl (fun a kv => jsUpsert a kv.1 kv.2) acc).map Prod.fst).Nodup by
    exact h l [] (by simp)
  intro l
  induction l with
  | nil =>
    intro acc hacc
    exact hacc
  | cons kv t ih =>
    intro acc hacc
    exact ih (jsUpsert acc kv.1 kv.2) (nodup_keys_jsUpsert kv.1 kv.2 hacc)

theorem lookupKey_objFromList {α : Type} (l : List (String × α)) (k : String) :
    lookupKey k (objFromList l) = lookupKey k l.reverse := by
  induction l using List.reverseRecOn with
  | nil => rfl
  | append_singleton t kv ih =>
    rw [objFromList, List.foldl_append]
    simp only [List.foldl_cons, List.foldl_nil]
    rw [show List.foldl (fun a kv => jsUpsert a kv.1 kv.2) [] t = objFromList t from rfl]
    rw [lookupKey_jsUpsert, List.reverse_append]
    simp only [List.reverse_cons, List.reverse_nil, List.nil_append, List.singleton_append]
    rw [lookupKey]
    by_cases hk : kv.1 = k
    · simp [hk]
    · simp [hk, ih]

theorem foldl_classifyStep (l : List (String × Service)) :
    ∀ acc : Analysis,
      l.foldl classifyStep acc
        = ⟨acc.databases ++ (l.filter classDb).map Prod.fst,
           acc.apps ++ (l.filter classApp).map Prod.fst,
           acc.otherServices ++ (l.filter classOther).map Prod.fst⟩ := by
  induction l with
  | nil =>
    intro acc
    simp
  | cons e t ih =>
    intro acc
    rw [List.foldl_cons, ih]
    by_cases hdb : isDbService e.1 e.2 = true
    · have h1 : classDb e = true := hdb
      have h2 : classApp e = false := by simp [classApp, h1]
      have h3 : classOther e = false := by simp [classOther, h1]
      simp [classifyStep, hdb, h1, h2, h3]
    · by_cases himg : hasImageOrBuild e.2 = true
      · have h1 : classDb e = false := by simpa [classDb] using hdb
        have h2 : classApp e = true := by simp [classApp, h1, himg]
        have h3 : classOther e = false := by simp [classOther, himg]
        simp [classifyStep, hdb, himg, h1, h2, h3]
      · have h1 : classDb e = false := by simpa [classDb] using hdb
        have h2 : classApp e = false := by simp [classApp, himg]
        have h3 : classOther e = true := by
          simp only [classOther, h1, Bool.not_false, Bool.true_and, Bool.not_eq_true']
          simpa using himg
        simp [classifyStep, hdb, himg, h1, h2, h3]

theorem analyzeServices_eq (services : List (String × Service)) :
    analyzeServices services
      = ⟨(services.filter classDb).map Prod.fst,
         (services.filter classApp).map Prod.fst,
         (services.filter classOther).map Prod.fst⟩ := by
  rw [analyzeServices, foldl_classifyStep]
  simp

theorem classified_perm (services : List (String × Service)) :
    ((analyzeServices services).databases
      ++ (analyzeServices services).apps
      ++ (analyzeServices services).otherServices).Perm
      (services.map Prod.fst) := by
  rw [analyzeServices_eq]
  dsimp only
  rw [← List.map_append, ← List.map_append]
  apply List.Perm.map
  have happ : services.filter classApp
      = (services.filter (fun e => !classDb e)).filter (fun e => hasImageOrBuild e.2) := by
    rw [List.filter_filter]
    apply List.filter_congr
    intro e _
    simp [classApp, Bool.and_comm]
  have hoth : services.filter classOther
      = (services.filter (fun e => !classDb e)).filter (fun e => !hasImageOrBuild e.2) := by
    rw [List.filter_filter]
    apply List.filter_congr
    intro e _
    simp [classOther, Bool.and_comm]
  rw [happ, hoth, List.append_assoc]
  refine List.Perm.trans ?_ (List.filter_append_perm classDb services)
  exact List.Perm.append_left _
    (List.filter_append_perm (fun e : String × Service => hasImageOrBuild e.2) _)

/-! ## C1: classification is an order-preserving partition -/

/-- C1: for every compose document whose services mapping has N entries
(service names unique, as in any mapping), the classifier produces an
Analysis whose three sets are pairwise disjoint, whose union is exactly
the set of all N declared service names (stated as a permutation of the
name list, which also fixes the size), and each of which lists its names
in document order (stated as a sublist of the document's name list). -/
theorem analyzeServices_partition (services : List (String × Service))
    (hnd : (services.map Prod.fst).Nodup) :
    ((analyzeServices services).databases ++ (analyzeServices services).apps
      ++ (analyzeServices services).otherServices).Perm (services.map Prod.fst)
    ∧ (analyzeServices services).databases.Disjoint (analyzeServices services).apps
    ∧ (analyzeServices services).databases.Disjoint (analyzeServices services).otherServices
    ∧ (analyzeServices services).apps.Disjoint (analyzeServices services).otherServices
    ∧ (analyzeServices services).databases.Sublist (services.map Prod.fst)
    ∧ (analyzeServices services).apps.Sublist (services.map Prod.fst)
    ∧ (analyzeServices services).otherServices.Sublist (services.map Prod.fst) := by
  have hperm := classified_perm services
  have hnodup : ((analyzeServices services).databases ++ ((analyzeServices services).apps
      ++ (analyzeServices services).otherServices)).Nodup := by
    rw [← List.append_assoc]
    exact hperm.symm.nodup hnd
  rw [List.nodup_append] at hnodup
  obtain ⟨_, hao, hdisj⟩ := hnodup
  rw [List.nodup_append] at hao
  rw [List.disjoint_append_right] at hdisj
  refine ⟨hperm, hdisj.1, hdisj.2, hao.2.2, ?_, ?_, ?_⟩
  all_goals
    rw [analyzeServices_eq]
    dsimp only
    exact List.Sublist.map _ (List.filter_sublist _)

/-- Witness for C1 at the concrete two-service scenario document. -/
theorem analyzeServices_partition_witness :
    ((analyzeServices dbScenarioServices).databases
      ++ (analyzeServices dbScenarioServices).apps
      ++ (analyzeServices dbScenarioServices).otherServices).Perm
      (dbScenarioServices.map Prod.fst)
    ∧ (analyzeServices dbScenarioServices).databases.Disjoint
        (analyzeServices dbScenarioServices).apps
    ∧ (analyzeServices dbScenarioServices).databases.Disjoint
        (analyzeServices dbScenarioServices).otherServices
    ∧ (analyzeServices dbScenarioServices).apps.Disjoint
        (analyzeServices dbScenarioServices).otherServices
    ∧ (analyzeServices dbScenarioServices).databases.Sublist
        (dbScenarioServices.map Prod.fst)
    ∧ (analyzeServices dbScenarioServices).apps.Sublist
        (dbScenarioServices.map Prod.fst)
    ∧ (analyzeServices dbScenarioServices).otherServices.Sublist
        (dbScenarioServices.map Prod.fst) :=
  analyzeServices_partition dbScenarioServices (by decide)

/-! ## C2: the database-detection rule -/

theorem isDbService_iff {name : String} {service : Service} :
    isDbService name service = true ↔ DbKeywordHit name service := by
  rw [isDbService, DbKeywordHit]
  simp only [List.any_eq_true, Bool.or_eq_true, jsIncludes_iff]

theorem assoc_value_unique {α : Type} {l : List (String × α)}
    (hnd : (l.map Prod.fst).Nodup) {k : String} {v w : α}
    (h1 : (k, v) ∈ l) (h2 : (k, w) ∈ l) : v = w := by
  induction l with
  | nil => cases h1
  | cons p t ih =>
    rw [List.map_cons, List.nodup_cons] at hnd
    rcases List.mem_cons.mp h1 with he1 | h1'
    · rcases List.mem_cons.mp h2 with he2 | h2'
      · rw [← he1] at he2
        exact (Prod.mk.injEq _ _ _ _ ▸ he2).2.symm
      · exfalso
        apply hnd.1
        rw [← he1]
        show k ∈ t.map Prod.fst
        exact List.mem_map_of_mem Prod.fst h2'
    · rcases List.mem_cons.mp h2 with he2 | h2'
      · exfalso
        apply hnd.1
        rw [← he2]
        show k ∈ t.map Prod.fst
        exact List.mem_map_of_mem Prod.fst h1'
      · exact ih hnd.2 h1' h2'

theorem mem_mapfst_filter {p : (String × Service) → Bool}
    {services : List (String × Service)} {name : String} {svc : Service}
    (hnd : (services.map Prod.fst).Nodup) (hmem : (name, svc) ∈ services) :
    (name ∈ (services.filter p).map Prod.fst ↔ p (name, svc) = true) := by
  constructor
  · intro h
    rcases List.mem_map.mp h with ⟨e, he, hfst⟩
    rcases List.mem_filter.mp he with ⟨hel, hpe⟩
    have : e = (name, svc) := by
      obtain ⟨e1, e2⟩ := e
      dsimp at hfst
      subst hfst
      have := assoc_value_unique hnd hel hmem
      rw [this]
    rw [← this]
    exact hpe
  · intro h
    exact List.mem_map_of_mem Prod.fst (List.mem_filter.mpr ⟨hmem, h⟩)

/-- C2 (amended): the classifier decides Database by testing the lowercase
image reference and the lowercase declared name separately: a service is
classified Database iff some recognized keyword occurs in the lowercased
image reference or in the lowercased name (not in their concatenation,
which would additionally match keywords spanning the boundary); otherwise
it is classified Application iff an image or build reference is present,
and Other otherwise. -/
theorem analyzeServices_classification (services : List (String × Service))
    (name : String) (svc : Service)
    (hmem : (name, svc) ∈ services) (hnd : (services.map Prod.fst).Nodup) :
    (name ∈ (analyzeServices services).databases ↔ DbKeywordHit name svc)
    ∧ (name ∈ (analyzeServices services).apps
        ↔ ¬DbKeywordHit name svc ∧ (svc.image.isSome = true ∨ svc.build = true))
    ∧ (name ∈ (analyzeServices services).otherServices
        ↔ ¬DbKeywordHit name svc
          ∧ ¬(svc.image.isSome = true ∨ svc.build = true)) := by
  rw [analyzeServices_eq]
  dsimp only
  rw [mem_mapfst_filter hnd hmem, mem_mapfst_filter hnd hmem,
    mem_mapfst_filter hnd hmem]
  have hdb : classDb (name, svc) = true ↔ DbKeywordHit name svc := isDbService_iff
  constructor
  · exact hdb
  constructor
  · rw [classApp, Bool.and_eq_true, Bool.not_eq_true', ← Bool.not_eq_true]
    rw [hasImageOrBuild, Bool.or_eq_true]
    exact and_congr (not_congr hdb) Iff.rfl
  · rw [classOther, Bool.and_eq_true, Bool.not_eq_true', ← Bool.not_eq_true,
      Bool.not_eq_true', ← Bool.not_eq_true, hasImageOrBuild, Bool.or_eq_true]
    exact and_congr (not_congr hdb) Iff.rfl

/-- Counterexample for C2 as stated: for the service named `gres` with
image `post`, the spec's concatenated haystack is `postgres`, which
contains the keyword `postgres`, so the claim classifies it Database; the
code tests image and name separately and classifies it Application. -/
theorem analyzeServices_haystack_counterexample :
    specHaystackIsDb "gres" { image := some "post" } = true
    ∧ (analyzeServices [("gres", { image := some "post" })]).databases = []
    ∧ (analyzeServices [("gres", { image := some "post" })]).apps = ["gres"] := by
  decide

/-- Witness for C2 at the scenario document's `db` service. -/
theorem analyzeServices_classification_witness :
    ("db" ∈ (analyzeServices dbScenarioServices).databases
      ↔ DbKeywordHit "db" { image := some "postgres:15" })
    ∧ ("db" ∈ (analyzeServices dbScenarioServices).apps
        ↔ ¬DbKeywordHit "db" { image := some "postgres:15" }
          ∧ ((some "postgres:15" : Option String).isSome = true ∨ false = true))
    ∧ ("db" ∈ (analyzeServices dbScenarioServices).otherServices
        ↔ ¬DbKeywordHit "db" { image := some "postgres:15" }
          ∧ ¬((some "postgres:15" : Option String).isSome = true ∨ false = true)) :=
  analyzeServices_classification dbScenarioServices "db"
    { image := some "postgres:15" } (by decide) (by decide)

/-! ## C3: schema synthesis on key collisions -/

/-- C3 (amended): schema synthesis uses plain JS object assignment, so on a
field-key collision the property recorded in the final SchemaDescription —
including its default and title — is the one from the LAST insertion
(later passes overwrite existing fields in place); field keys nevertheless
remain unique. -/
theorem metaSchemaProps_last_writer_wins (compose : DockerCompose) (analysis : Analysis) :
    ((metaSchemaProps compose analysis).map Prod.fst).Nodup
    ∧ ∀ k, lookupKey k (metaSchemaProps compose analysis)
        = lookupKey k (projectNameField :: fieldInsertions compose analysis).reverse := by
  refine ⟨nodup_keys_objFromList _, fun k => ?_⟩
  rw [metaSchemaProps, lookupKey_objFromList]

/-- Counterexample for C3 as stated: in a document with services `a_b` and
`a` where `a` has an environment key `bServiceName`, both the service-name
pass for `a_b` and the environment pass for `a` insert the field key
`a_bServiceName`; the final schema records the later environment property
(title `a: bServiceName`, default `X`), not the first-inserted
service-name property (title `a_b Service Name`, default `a_b`). -/
theorem metaSchemaProps_first_writer_counterexample :
    lookupKey "a_bServiceName"
      (metaSchemaProps
        ⟨[("a_b", { image := some "nginx" }),
          ("a", { image := some "nginx",
                  environment := some (EnvInput.mapping [("bServiceName", "X")]) })]⟩
        (analyzeServices
          [("a_b", { image := some "nginx" }),
           ("a", { image := some "nginx",
                   environment := some (EnvInput.mapping [("bServiceName", "X")]) })]))
      = some ⟨"string", "a: bServiceName", some "X"⟩
    ∧ lookupKey "a_bServiceName"
        (fieldInsertions
          ⟨[("a_b", { image := some "nginx" }),
            ("a", { image := some "nginx",
                    environment := some (EnvInput.mapping [("bServiceName", "X")]) })]⟩
          (analyzeServices
            [("a_b", { image := some "nginx" }),
             ("a", { image := some "nginx",
                     environment := some (EnvInput.mapping [("bServiceName", "X")]) })]))
        = some ⟨"string", "a_b Service Name", some "a_b"⟩
    ∧ (⟨"string", "a: bServiceName", some "X"⟩ : FieldSpec)
        ≠ ⟨"string", "a_b Service Name", some "a_b"⟩ := by
  decide

/-! ## C4: the database-detection scenario -/

/-- C4: in the document with service `db` (image `postgres:15`) and service
`api` whose environment value contains the substring `db`, the classifier
puts `db` in the databases set, the emitted generator source contains the
secret-generation statement for `db`, and the `db` occurrence in `api`'s
emitted environment value is replaced by the symbolic reference built from
the platform's project-name token `$(PROJECT_NAME)` and the runtime-name
field reference `input.dbServiceName` (with the interpolation sigils
escaped for safe embedding in a template literal); the literal
compose-time host reference `@db:` no longer occurs anywhere in the
emitted source. -/
theorem convert_db_detection_scenario :
    (analyzeServices dbScenarioServices).databases = ["db"]
    ∧ (analyzeServices dbScenarioServices).apps = ["api"]
    ∧ jsIncludes
        (generateIndexTs "myapp" ⟨dbScenarioServices⟩ (analyzeServices dbScenarioServices))
        "const dbPassword = randomPassword();" = true
    ∧ interpolateEnvValue "postgres://user:pass@db:5432/app" [("db", passwordVar "db")]
        = "postgres://user:pass@\\$(PROJECT_NAME)_\\$\x7binput.dbServiceName\x7d:5432/app"
    ∧ jsIncludes
        (generateIndexTs "myapp" ⟨dbScenarioServices⟩ (analyzeServices dbScenarioServices))
        "`DATABASE_URL=postgres://user:pass@\\$(PROJECT_NAME)_\\$\x7binput.dbServiceName\x7d:5432/app`,"
        = true
    ∧ jsIncludes
        (generateIndexTs "myapp" ⟨dbScenarioServices⟩ (analyzeServices dbScenarioServices))
        "@db:" = false := by
  decide

/-! ## C5: emitted statements for database services -/

theorem containsInOrder_prepend (pre : List Char) {h : List Char}
    {ps : List (List Char)} (hc : containsInOrder h ps) :
    containsInOrder (pre ++ h) ps := by
  cases ps with
  | nil => trivial
  | cons p pr =>
    obtain ⟨a, b, hab, hrest⟩ := hc
    exact ⟨pre ++ a, b, by rw [hab]; simp [List.append_assoc], hrest⟩

theorem containsInOrder_postpend (post : List Char) {h : List Char}
    {ps : List (List Char)} (hc : containsInOrder h ps) :
    containsInOrder (h ++ post) ps := by
  induction ps generalizing h with
  | nil => trivial
  | cons p pr ih =>
    obtain ⟨a, b, hab, hrest⟩ := hc
    exact ⟨a, b ++ post, by rw [hab]; simp [List.append_assoc], ih hrest⟩

theorem containsInOrder_append {h1 h2 : List Char} {ps1 ps2 : List (List Char)}
    (hc1 : containsInOrder h1 ps1) (hc2 : containsInOrder h2 ps2) :
    containsInOrder (h1 ++ h2) (ps1 ++ ps2) := by
  induction ps1 generalizing h1 with
  | nil =>
    rw [List.nil_append]
    exact containsInOrder_prepend h1 hc2
  | cons p pr ih =>
    obtain ⟨a, b, hab, hrest⟩ := hc1
    exact ⟨a, b ++ h2, by rw [hab]; simp [List.append_assoc], ih hrest⟩

theorem containsInOrder_concatMap {α : Type} (f g : α → String) (l : List α)
    (h : ∀ x ∈ l, ∃ a b, (f x).data = a ++ (g x).data ++ b) :
    containsInOrder (concatMapStr f l).data (l.map fun x => (g x).data) := by
  induction l with
  | nil => trivial
  | cons x t ih =>
    obtain ⟨a, b, hab⟩ := h x (List.mem_cons_self x t)
    refine ⟨a, b ++ (concatMapStr f t).data, ?_, ?_⟩
    · rw [concatMapStr, String.data_append, hab]
      simp [List.append_assoc]
    · exact containsInOrder_prepend b
        (ih fun y hy => h y (List.mem_cons_of_mem x hy))

theorem containsInOrder_concatMap_filter {α : Type} (f g : α → String)
    (p : α → Bool) (l : List α)
    (h : ∀ x ∈ l, p x = true → ∃ a b, (f x).data = a ++ (g x).data ++ b) :
    containsInOrder (concatMapStr f l).data ((l.filter p).map fun x => (g x).data) := by
  induction l with
  | nil => trivial
  | cons x t ih =>
    by_cases hp : p x = true
    · obtain ⟨a, b, hab⟩ := h x (List.mem_cons_self x t) hp
      rw [List.filter_cons_of_pos hp, List.map_cons]
      refine ⟨a, b ++ (concatMapStr f t).data, ?_, ?_⟩
      · rw [concatMapStr, String.data_append, hab]
        simp [List.append_assoc]
      · exact containsInOrder_prepend b
          (ih fun y hy hpy => h y (List.mem_cons_of_mem x hy) hpy)
    · rw [List.filter_cons_of_neg (by simpa using hp), concatMapStr, String.data_append]
      exact containsInOrder_prepend (f x).data
        (ih fun y hy hpy => h y (List.mem_cons_of_mem x hy) hpy)

theorem detectDatabaseType_supported {img ty : String}
    (h : detectDatabaseType img = some ty) :
    ty ∈ ["postgres", "mysql", "mariadb", "mongo", "redis"] := by
  rw [detectDatabaseType] at h
  split_ifs at h <;> (rw [Option.some.injEq] at h; rw [← h]; decide)

theorem lookupKey_map_pair {α : Type} (f : String → α) {d : String} {l : List String}
    (h : d ∈ l) :
    lookupKey d (l.map fun x => (x, f x)) = some (f d) := by
  induction l with
  | nil => cases h
  | cons x t ih =>
    rw [List.map_cons, lookupKey]
    dsimp only
    by_cases hx : x = d
    · rw [if_pos hx, hx]
    · rw [if_neg hx]
      refine ih ?_
      rcases List.mem_cons.mp h with he | hm
      · exact absurd he.symm hx
      · exact hm

theorem dbChunk_eq_of_supported {compose : DockerCompose} {analysis : Analysis}
    {d : String} (hd : d ∈ analysis.databases)
    (hsup : (detectDatabaseType ((svcOf compose d).image.getD "")).isSome = true) :
    dbChunk compose (dbPasswordsOf analysis) d
      = ("  // " ++ d ++ " Service ("
          ++ (detectDatabaseType ((svcOf compose d).image.getD "")).getD "database"
          ++ ")\n")
        ++ dbDeclStmt compose d := by
  obtain ⟨ty, hty⟩ := Option.isSome_iff_exists.mp hsup
  have hlook : lookupKey d (dbPasswordsOf analysis) = some (passwordVar d) :=
    lookupKey_map_pair passwordVar hd
  rw [dbChunk, dbDeclStmt]
  simp only [hty, hlook, Option.getD_some,
    if_pos (detectDatabaseType_supported hty)]

/-- C5 (amended): for every database-class service whose image maps to a
supported engine type (postgres, mysql, mariadb, mongo, redis), the emitted
generator source contains, in document order, that service's
secret-generation statement and, after all the secret-generation
statements, its service-declaration statement; each such declaration
carries both the service's runtime-name reference and its generated
secret.  This holds per service — other database-class services in the
same document may be unsupported (e.g. elasticsearch): every database
service gets a secret-generation statement, and the supported ones, in
document order, get the typed declarations.  (As originally stated the
claim fails for database-class services outside the supported set, whose
declaration is emitted as an app service without its secret.) -/
theorem generateIndexTs_database_statements (slug : String) (compose : DockerCompose)
    (analysis : Analysis) :
    containsInOrder (generateIndexTs slug compose analysis).data
      ((analysis.databases.map fun d => (passwordStmt d).data)
        ++ ((analysis.databases.filter fun d =>
              (detectDatabaseType ((svcOf compose d).image.getD "")).isSome).map
            fun d => (dbDeclStmt compose d).data))
    ∧ ∀ d ∈ analysis.databases,
        (detectDatabaseType ((svcOf compose d).image.getD "")).isSome = true →
        (∃ a b, (dbDeclStmt compose d).data = a ++ (serviceNameLine d).data ++ b)
        ∧ ∃ a b, (dbDeclStmt compose d).data = a ++ (passwordLine d).data ++ b := by
  constructor
  · have h1 : containsInOrder (concatMapStr passwordStmt analysis.databases).data
        (analysis.databases.map fun d => (passwordStmt d).data) :=
      containsInOrder_concatMap passwordStmt passwordStmt _ (fun x _ => ⟨[], [], by simp⟩)
    have h2 : containsInOrder
        (concatMapStr (dbChunk compose (dbPasswordsOf analysis)) analysis.databases).data
        ((analysis.databases.filter fun d =>
            (detectDatabaseType ((svcOf compose d).image.getD "")).isSome).map
          fun d => (dbDeclStmt compose d).data) := by
      apply containsInOrder_concatMap_filter
      intro d hd hsup
      rw [dbChunk_eq_of_supported hd hsup]
      refine ⟨("  // " ++ d ++ " Service ("
          ++ (detectDatabaseType ((svcOf compose d).image.getD "")).getD "database"
          ++ ")\n").data, [], ?_⟩
      simp [String.data_append]
    have h3 := containsInOrder_postpend
      ((concatMapStr (fun a => generateAppServiceCode a (svcOf compose a)
          (dbPasswordsOf analysis)) analysis.apps).data
        ++ ((concatMapStr (fun s => generateAppServiceCode s (svcOf compose s)
              (dbPasswordsOf analysis)) analysis.otherServices).data
          ++ ("  return \x7b services \x7d;\n\x7d\n" : String).data)) h2
    have h4 := containsInOrder_prepend
      ((if analysis.databases.length = 0 then "" else "\n") : String).data h3
    have h5 := containsInOrder_append h1 h4
    have h6 := containsInOrder_prepend indexTsHeader.data h5
    rw [generateIndexTs]
    simp only [String.data_append]
    simpa only [List.append_assoc] using h6
  · intro d hd _
    constructor
    · refine ⟨("  services.push(\x7b\n    type: \""
          ++ (detectDatabaseType ((svcOf compose d).image.getD "")).getD ""
          ++ "\",\n    data: \x7b\n").data,
        ("      password: " ++ passwordVar d ++ ",\n"
          ++ "    \x7d,\n  \x7d);\n\n").data, ?_⟩
      simp [dbDeclStmt, dbTypedPush, serviceNameLine, String.data_append,
        List.append_assoc]
    · refine ⟨("  services.push(\x7b\n    type: \""
          ++ (detectDatabaseType ((svcOf compose d).image.getD "")).getD ""
          ++ "\",\n    data: \x7b\n" ++ "      serviceName: input." ++ d
          ++ "ServiceName,\n").data,
        ("    \x7d,\n  \x7d);\n\n").data, ?_⟩
      simp [dbDeclStmt, dbTypedPush, passwordLine, String.data_append,
        List.append_assoc]

/-- Witness for C5 at a mixed document with a supported postgres database
and an unsupported elasticsearch database. -/
theorem generateIndexTs_database_statements_witness :
    containsInOrder
      (generateIndexTs "t"
        ⟨[("db", { image := some "postgres:15" }),
          ("search", { image := some "elasticsearch:8" })]⟩
        (analyzeServices [("db", { image := some "postgres:15" }),
          ("search", { image := some "elasticsearch:8" })])).data
      (((analyzeServices [("db", { image := some "postgres:15" }),
            ("search", { image := some "elasticsearch:8" })]).databases.map
          fun d => (passwordStmt d).data)
        ++ (((analyzeServices [("db", { image := some "postgres:15" }),
              ("search", { image := some "elasticsearch:8" })]).databases.filter
            fun d => (detectDatabaseType
              ((svcOf ⟨[("db", { image := some "postgres:15" }),
                ("search", { image := some "elasticsearch:8" })]⟩ d).image.getD
                "")).isSome).map
          fun d => (dbDeclStmt ⟨[("db", { image := some "postgres:15" }),
            ("search", { image := some "elasticsearch:8" })]⟩ d).data))
    ∧ ((∃ a b, (dbDeclStmt ⟨[("db", { image := some "postgres:15" }),
          ("search", { image := some "elasticsearch:8" })]⟩ "db").data
          = a ++ (serviceNameLine "db").data ++ b)
        ∧ ∃ a b, (dbDeclStmt ⟨[("db", { image := some "postgres:15" }),
            ("search", { image := some "elasticsearch:8" })]⟩ "db").data
            = a ++ (passwordLine "db").data ++ b) :=
  ⟨(generateIndexTs_database_statements "t" _ _).1,
   (generateIndexTs_database_statements "t"
      ⟨[("db", { image := some "postgres:15" }),
        ("search", { image := some "elasticsearch:8" })]⟩
      (analyzeServices [("db", { image := some "postgres:15" }),
        ("search", { image := some "elasticsearch:8" })])).2
    "db" (by decide) (by decide)⟩

/-- Counterexample for C5 as stated: the service `search` with image
`elasticsearch:8` is database-class, and its secret-generation statement is
emitted, but its service declaration is emitted as an app service carrying
the runtime-name reference and NO generated secret (no `password:` field
occurs anywhere in the emitted source). -/
theorem generateIndexTs_secret_counterexample :
    "search" ∈ (analyzeServices [("search", { image := some "elasticsearch:8" })]).databases
    ∧ jsIncludes
        (generateIndexTs "t" ⟨[("search", { image := some "elasticsearch:8" })]⟩
          (analyzeServices [("search", { image := some "elasticsearch:8" })]))
        "const searchPassword = randomPassword();" = true
    ∧ jsIncludes
        (generateIndexTs "t" ⟨[("search", { image := some "elasticsearch:8" })]⟩
          (analyzeServices [("search", { image := some "elasticsearch:8" })]))
        "serviceName: input.searchServiceName" = true
    ∧ jsIncludes
        (generateIndexTs "t" ⟨[("search", { image := some "elasticsearch:8" })]⟩
          (analyzeServices [("search", { image := some "elasticsearch:8" })]))
        "password:" = false := by
  decide

/-! ## C6, C7, C10: parseVolume -/

theorem parseVolume_of_split (s : String) (ps : List String)
    (hs : splitOnStr ':' s = ps) (h2 : 2 ≤ ps.length) :
    parseVolume s
      = if (jsStartsWith (ps.headD "") "/" || jsStartsWith (ps.headD "") "./") = true
        then ⟨MountType.bind, ps.headD "", ps.getD 1 "", some (ps.headD "")⟩
        else ⟨MountType.volume, ps.headD "", ps.getD 1 "", none⟩ := by
  simp only [parseVolume, hs]
  rw [if_pos h2]

/-- C6 (amended): for every volume token with at least two colon-separated
parts, `parseVolume` yields mechanism bind-mount iff the source segment
begins with `/` or `./` — a source beginning with `../` is NOT recognized
as a relative-path marker and falls through to the named-volume case; any
non-bind source yields a named volume whose name equals the source
segment. -/
theorem parseVolume_bind_rule (v : String) (h : 2 ≤ (splitOnStr ':' v).length) :
    ((parseVolume v).vtype = MountType.bind
      ↔ (jsStartsWith ((splitOnStr ':' v).headD "") "/" = true
         ∨ jsStartsWith ((splitOnStr ':' v).headD "") "./" = true))
    ∧ ((parseVolume v).vtype = MountType.volume
        → (parseVolume v).name = (splitOnStr ':' v).headD "") := by
  rw [parseVolume_of_split v (splitOnStr ':' v) rfl h]
  by_cases hb : (jsStartsWith ((splitOnStr ':' v).headD "") "/"
      || jsStartsWith ((splitOnStr ':' v).headD "") "./") = true
  · rw [if_pos hb]
    rw [Bool.or_eq_true] at hb
    exact ⟨⟨fun _ => hb, fun _ => rfl⟩, fun hv => nomatch hv⟩
  · rw [if_neg hb]
    rw [Bool.or_eq_true] at hb
    refine ⟨⟨fun hv => ?_, fun hor => absurd hor hb⟩, fun _ => rfl⟩
    exact MountType.noConfusion hv

/-- Counterexample for C6 as stated: the token `../data:/app` has a source
beginning with the relative-path marker `../`, yet `parseVolume` yields a
named volume (named `../data`), not a bind mount. -/
theorem parseVolume_dotdot_counterexample :
    parseVolume "../data:/app" = ⟨MountType.volume, "../data", "/app", none⟩
    ∧ jsStartsWith "../data" "../" = true := by
  decide

/-- Witness for C6 at the token `data:/app`. -/
theorem parseVolume_bind_rule_witness :
    ((parseVolume "data:/app").vtype = MountType.bind
      ↔ (jsStartsWith ((splitOnStr ':' "data:/app").headD "") "/" = true
         ∨ jsStartsWith ((splitOnStr ':' "data:/app").headD "") "./" = true))
    ∧ ((parseVolume "data:/app").vtype = MountType.volume
        → (parseVolume "data:/app").name = (splitOnStr ':' "data:/app").headD "") :=
  parseVolume_bind_rule "data:/app" (by decide)

/-- C7 (amended): a volume token that splits into fewer than two parts is
not reported for manual handling: `parseVolume` produces a guessed named
volume with placeholder name `unknown` whose container path is the whole
token verbatim. -/
theorem parseVolume_short_token (v : String)
    (h : (splitOnStr ':' v).length < 2) :
    parseVolume v = ⟨MountType.volume, "unknown", v, none⟩ := by
  simp only [parseVolume]
  rw [if_neg (by omega : ¬2 ≤ (splitOnStr ':' v).length)]

/-- Counterexample for C7 as stated: the single-part token `data` is not
reported verbatim for manual handling — it produces a named-volume binding
with the guessed name `unknown`, which the emitter then renders as an
ordinary volume mount (no manual-review `TODO` marker is emitted). -/
theorem parseVolume_unknown_counterexample :
    parseVolume "data" = ⟨MountType.volume, "unknown", "data", none⟩
    ∧ jsIncludes
        (generateAppServiceCode "web" { image := some "nginx", volumes := ["data"] } [])
        "name: \"unknown\"," = true
    ∧ jsIncludes
        (generateAppServiceCode "web" { image := some "nginx", volumes := ["data"] } [])
        "TODO" = false := by
  decide

/-- Witness for C7 at the token `data`. -/
theorem parseVolume_short_token_witness :
    parseVolume "data" = ⟨MountType.volume, "unknown", "data", none⟩ :=
  parseVolume_short_token "data" (by decide)

/-- C10: a volume token with three or more colon-separated parts never
fails: `parseVolume` uses only the first two segments, so its container
path is exactly the second segment and the result coincides with parsing
the token truncated to its first two segments (trailing mode or option
segments are discarded). -/
theorem parseVolume_extra_segments (v : String)
    (h : 3 ≤ (splitOnStr ':' v).length) :
    (parseVolume v).containerPath = (splitOnStr ':' v).getD 1 ""
    ∧ parseVolume v
        = parseVolume (String.mk (joinWith [':'] ((splitOnChar ':' v.data).take 2))) := by
  have hlen : 3 ≤ (splitOnChar ':' v.data).length := by
    rw [splitOnStr, List.length_map] at h
    exact h
  rcases hps : splitOnChar ':' v.data with _ | ⟨p0, tail0⟩
  · rw [hps] at hlen
    simp at hlen
  rcases htail : tail0 with _ | ⟨p1, rest⟩
  · rw [hps, htail] at hlen
    simp at hlen
  subst htail
  have hp0 : ':' ∉ p0 :=
    splitOnChar_no_sep ':' v.data p0 (by rw [hps]; exact List.mem_cons_self _ _)
  have hp1 : ':' ∉ p1 :=
    splitOnChar_no_sep ':' v.data p1
      (by rw [hps]; exact List.mem_cons_of_mem _ (List.mem_cons_self _ _))
  have hw2 : String.mk (joinWith [':'] ((p0 :: p1 :: rest).take 2))
      = String.mk (p0 ++ ':' :: p1) := by
    show String.mk (joinWith [':'] [p0, p1]) = _
    simp only [joinWith]
    rw [List.append_assoc, List.singleton_append]
  have hv : splitOnStr ':' v = String.mk p0 :: String.mk p1 :: rest.map String.mk := by
    rw [splitOnStr, hps]
    rfl
  have hwsplit : splitOnStr ':' (String.mk (p0 ++ ':' :: p1))
      = [String.mk p0, String.mk p1] := by
    rw [splitOnStr]
    show (splitOnChar ':' (p0 ++ ':' :: p1)).map String.mk = _
    rw [splitOnChar_append_sep p1 hp0, splitOnChar_eq_single hp1]
    rfl
  constructor
  · rw [parseVolume_of_split v _ hv (by simp), hv]
    split <;> rfl
  · rw [hw2, parseVolume_of_split v _ hv (by simp),
      parseVolume_of_split _ _ hwsplit (by simp)]
    rfl

/-- Witness for C10 at the token `data:/path:ro`. -/
theorem parseVolume_extra_segments_witness :
    (parseVolume "data:/path:ro").containerPath
      = (splitOnStr ':' "data:/path:ro").getD 1 ""
    ∧ parseVolume "data:/path:ro"
        = parseVolume
            (String.mk (joinWith [':'] ((splitOnChar ':' ("data:/path:ro" : String).data).take 2))) :=
  parseVolume_extra_segments "data:/path:ro" (by decide)

/-! ## C8: parsePort -/

/-- C8 (amended): a token splitting into exactly two colon-separated parts
yields a binding whose two sides are the integer parses of the parts (NaN,
modelled `none`, when a part is not numeric); a token with no colon —
whether or not it is a bare integer — also yields a binding, with both
sides equal to its integer parse; only tokens with two or more colons
yield no binding.  The containerPort therefore need not be an integer: it
is NaN whenever the container segment does not parse. -/
theorem parsePort_shapes (s : String) :
    ((splitOnStr ':' s).length = 2 →
      parsePort s = some ⟨jsParseInt ((splitOnStr ':' s).headD ""),
        jsParseInt ((splitOnStr ':' s).getD 1 "")⟩)
    ∧ ((splitOnStr ':' s).length = 1 →
      parsePort s = some ⟨jsParseInt ((splitOnStr ':' s).headD ""),
        jsParseInt ((splitOnStr ':' s).headD "")⟩)
    ∧ (3 ≤ (splitOnStr ':' s).length → parsePort s = none)
    ∧ (':' ∉ s.data → parsePort s = some ⟨jsParseInt s, jsParseInt s⟩) := by
  refine ⟨fun h2 => ?_, fun h1 => ?_, fun h3 => ?_, fun hnc => ?_⟩
  · simp only [parsePort]
    rw [if_pos h2]
  · simp only [parsePort]
    rw [if_neg (by omega), if_pos h1]
  · simp only [parsePort]
    rw [if_neg (by omega), if_neg (by omega)]
  · have hone : splitOnStr ':' s = [s] := by
      rw [splitOnStr, splitOnChar_eq_single hnc]
      rfl
    simp only [parsePort, hone]
    rw [if_neg (by simp), if_pos (by simp)]
    rfl

/-- Counterexample for C8 as stated: the single non-integer token `abc` is
neither a colon pair nor a bare integer, yet it yields a binding — and its
containerPort is NaN (`none`), not an integer. -/
theorem parsePort_nan_counterexample :
    parsePort "abc" = some ⟨none, none⟩ := by
  decide

/-- Witness for C8 at the tokens `8080:80` and `a:b:c`. -/
theorem parsePort_shapes_witness :
    parsePort "8080:80" = some ⟨jsParseInt ((splitOnStr ':' "8080:80").headD ""),
      jsParseInt ((splitOnStr ':' "8080:80").getD 1 "")⟩
    ∧ parsePort "a:b:c" = none :=
  ⟨(parsePort_shapes "8080:80").1 (by decide),
   (parsePort_shapes "a:b:c").2.2.1 (by decide)⟩

/-! ## C9: parseEnvironment format independence -/

theorem splitFirstEq_no_eq {item : String} (h : '=' ∉ item.data) :
    splitFirstEq item = (item, "") := by
  rw [splitFirstEq, splitOnChar_eq_single h]
  rfl

theorem splitFirstEq_token (k v : String) (h : '=' ∉ k.data) :
    splitFirstEq (k ++ "=" ++ v) = (k, v) := by
  have hdata : (k ++ "=" ++ v).data = k.data ++ '=' :: v.data := by
    rw [String.data_append, String.data_append, List.append_assoc]
    rfl
  rw [splitFirstEq, hdata, splitOnChar_append_sep v.data h]
  simp only [List.headD, List.tail]
  rw [joinWith_splitOnChar '=' v.data]

theorem envSeqFold (m : List (String × String)) :
    ∀ acc : List (String × String),
      (∀ kv ∈ m, '=' ∉ kv.1.data) →
      ((m.map Prod.fst).Nodup) →
      (∀ kv ∈ m, ∀ p ∈ acc, p.1 ≠ kv.1) →
      (m.map fun kv => kv.1 ++ "=" ++ kv.2).foldl
        (fun acc item => jsUpsert acc (splitFirstEq item).1 (splitFirstEq item).2) acc
      = acc ++ m := by
  induction m with
  | nil =>
    intro acc _ _ _
    simp
  | cons kv t ih =>
    intro acc hk hnd hfresh
    rw [List.map_cons, List.foldl_cons]
    have hsplit : splitFirstEq (kv.1 ++ "=" ++ kv.2) = (kv.1, kv.2) :=
      splitFirstEq_token kv.1 kv.2 (hk kv (List.mem_cons_self kv t))
    rw [hsplit]
    have hany : acc.any (fun p => p.1 = kv.1) = false := by
      rw [Bool.eq_false_iff]
      intro hc
      rw [List.any_eq_true] at hc
      obtain ⟨p, hp, hpe⟩ := hc
      rw [decide_eq_true_eq] at hpe
      exact hfresh kv (List.mem_cons_self kv t) p hp hpe
    rw [show jsUpsert acc kv.1 kv.2 = acc ++ [(kv.1, kv.2)] by
      rw [jsUpsert, if_neg (by rw [hany]; simp)]]
    rw [List.map_cons, List.nodup_cons] at hnd
    have hres := ih (acc ++ [(kv.1, kv.2)])
      (fun q hq => hk q (List.mem_cons_of_mem kv hq)) hnd.2 ?_
    · rw [hres, List.append_assoc]
      rfl
    · intro q hq p hp
      rcases List.mem_append.mp hp with hpa | hpk
      · exact hfresh q (List.mem_cons_of_mem kv hq) p hpa
      · rw [List.mem_singleton] at hpk
        subst hpk
        intro he
        apply hnd.1
        rw [he]
        exact List.mem_map_of_mem Prod.fst hq

/-- C9: environment normalization is format-independent: for every
environment mapping (whose keys, as `KEY=VALUE` tokens require, contain no
`=`), normalizing the equivalent token sequence — where each token is
split only on its first `=`, so values may contain `=` — yields exactly
the ordered mapping obtained from the mapping form; and a token with no
`=` maps to the empty-string value instead of failing. -/
theorem parseEnvironment_format_independent :
    (∀ m : List (String × String),
      (m.map Prod.fst).Nodup →
      (∀ kv ∈ m, '=' ∉ kv.1.data) →
      parseEnvironment (EnvInput.seq (m.map fun kv => kv.1 ++ "=" ++ kv.2))
        = parseEnvironment (EnvInput.mapping m))
    ∧ ∀ item : String, '=' ∉ item.data → splitFirstEq item = (item, "") := by
  refine ⟨fun m hnd hk => ?_, fun item h => splitFirstEq_no_eq h⟩
  rw [parseEnvironment, parseEnvironment]
  rw [envSeqFold m [] hk hnd (by simp)]
  rfl

/-- Witness for C9 at a mapping whose value contains `=` and at a token
with no `=`. -/
theorem parseEnvironment_format_independent_witness :
    parseEnvironment
        (EnvInput.seq ([("A", "B=C"), ("D", "")].map fun kv => kv.1 ++ "=" ++ kv.2))
      = parseEnvironment (EnvInput.mapping [("A", "B=C"), ("D", "")])
    ∧ splitFirstEq "NOEQ" = ("NOEQ", "") :=
  ⟨parseEnvironment_format_independent.1 [("A", "B=C"), ("D", "")]
      (by decide) (by decide),
   parseEnvironment_format_independent.2 "NOEQ" (by decide)⟩
